import Mathlib

/-
  Shallow embedding of camlistore's directory reader
  (src/pkg/schema/dirreader.go) and of the Basic-Auth checker
  (src/lib/go/camli/auth/auth.go).

  Go state mutation is modelled by explicit state passing: operations on a
  DirReader return the updated DirReader alongside their result.  The external
  blob fetcher and the JSON schema decoder are modelled together as a pure
  function from a BlobRef to a fetch outcome; each operation additionally
  returns a Trace recording which refs it fetched and how many byte streams it
  opened and closed, so that fetch-count and stream-closing properties can be
  stated.
-/

/-- Decidable equality for Except results, so that concrete runs of the
embedded operations can be checked by decide. -/
instance {ε α : Type} [DecidableEq ε] [DecidableEq α] : DecidableEq (Except ε α) :=
  fun x y =>
    match x, y with
    | .ok a, .ok b => decidable_of_iff (a = b) (by simp)
    | .error a, .error b => decidable_of_iff (a = b) (by simp)
    | .ok _, .error _ => isFalse (fun h => Except.noConfusion h)
    | .error _, .ok _ => isFalse (fun h => Except.noConfusion h)

namespace Camli

/-- Modelled from the spec: blob.Ref is code of this repository outside src/.
Per spec §3 a BlobRef is an immutable value wrapping a content digest string. -/
structure BlobRef where
  digest : String
deriving DecidableEq

/-- Modelled from the spec: blob.Ref.Valid is code of this repository outside
src/.  Per spec §3, validity means the digest is well-formed and non-empty; we
model it as non-emptiness of the digest string. -/
def BlobRef.Valid (r : BlobRef) : Bool :=
  !r.digest.isEmpty

/-- The decoded generic schema document ("superset" in dirreader.go).  The Go
field `Type` is named `typ` here because `Type` is a Lean keyword.  `Entries`
is the static-set BlobRef of a "directory" blob; `Members` is the ordered
member list of a "static-set" blob. -/
structure superset where
  typ : String := ""
  Entries : BlobRef := ⟨""⟩
  Members : List BlobRef := []
  blobRef : BlobRef := ⟨""⟩
deriving DecidableEq

/-- Errors produced by the embedded operations.  Each constructor corresponds
to one fmt.Errorf / errors.New site in the source (or to io.EOF). -/
inductive Err where
  /-- "schema/filereader: blobref invalid" / "Invalid blobref" -/
  | invalidRef
  /-- "schema/filereader: fetching schema blob %s: %v" -/
  | fetchError (ref : BlobRef)
  /-- "schema/filereader: decoding schema blob %s: %v" -/
  | decodeError (ref : BlobRef)
  /-- "expected %q schema blob ..., got %q" -/
  | unexpectedType (expected got : String)
  /-- "Superset not of type \"directory\"" (superset.NewDirReader) -/
  | notDirectory
  /-- "schema/filereader: creating DirReader for %s: %v" wrapper -/
  | creatingDirReader (e : Err)
  /-- "schema/filereader: invalid (static-set member) blobref" -/
  | invalidMember
  /-- "schema/filereader: can't get StaticSet: %v" wrapper -/
  | staticSetFailed (e : Err)
  /-- "schema/filereader: can't create dirEntry: %v" with `err` nil: the
  source formats the enclosing function's `err` variable into this error, not
  the failed task's error, and that variable may be nil. -/
  | dirEntryFailedNil
  /-- "schema/filereader: can't create dirEntry: %v" with `err` non-nil. -/
  | dirEntryFailedWith (wrapped : Err)
  /-- io.EOF -/
  | eof
  /-- an error reported by the external DirectoryEntry resolver -/
  | entryResolutionError (ref : BlobRef)
deriving DecidableEq

/-- The error built at the failing-collection return of Readdir, wrapping the
current (Option-valued) `err` variable. -/
def Err.dirEntryFailed : Option Err → Err
  | none => .dirEntryFailedNil
  | some e => .dirEntryFailedWith e

/-- Modelled from the spec: the Fetcher capability and the JSON schema decoder
(parseSuperset) are code of this repository outside src/.  Per spec §2 and
§4.1, fetching either fails, or yields a byte stream whose decoding yields a
schema document or fails; `stream none` is a stream whose bytes are not a
well-formed schema document. -/
inductive FetchOutcome where
  | fail
  | stream (doc : Option superset)
deriving DecidableEq

/-- A pure fetch-and-decode function standing for the blob.SeekFetcher
together with the schema decoder. -/
def FetchFn : Type :=
  BlobRef → FetchOutcome

/-- Instrumentation of one operation: which refs it fetched (in order) and how
many byte streams it opened and closed before returning. -/
structure Trace where
  fetched : List BlobRef := []
  opened : Nat := 0
  closed : Nat := 0
deriving DecidableEq

/-- The stateful directory reader of dirreader.go.  The Go `fetcher` field is
passed to each operation as an argument instead; `staticSet` is the lazily
populated member cache, with `none` standing for the Go nil slice; `current`
is the pagination cursor. -/
structure DirReader where
  ss : superset
  staticSet : Option (List BlobRef) := none
  current : Int := 0
deriving DecidableEq

/-- superset.setFromBlobRef: validate the ref, fetch it, decode it.  The
source closes the fetched stream with a defer, so every opened stream is
closed on every exit path here. -/
def setFromBlobRef (f : FetchFn) (blobRef : BlobRef) : Except Err superset × Trace :=
  if blobRef.Valid then
    match f blobRef with
    | .fail => (.error (.fetchError blobRef), { fetched := [blobRef] })
    | .stream none =>
      (.error (.decodeError blobRef), { fetched := [blobRef], opened := 1, closed := 1 })
    | .stream (some ss) =>
      (.ok { ss with blobRef := blobRef }, { fetched := [blobRef], opened := 1, closed := 1 })
  else (.error .invalidRef, {})

/-- superset.NewDirReader: requires the document to be of type "directory"
and returns a fresh DirReader with an empty cache. -/
def superset.NewDirReader (ss : superset) : Except Err DirReader :=
  if ss.typ = "directory" then .ok { ss := ss, staticSet := none, current := 0 }
  else .error .notDirectory

/-- NewDirReader: fetch and decode the directory schema blob, require type
"directory" (else UnexpectedType), build the DirReader with cursor 0.  No
other fetch happens at construction. -/
def NewDirReader (f : FetchFn) (dirBlobRef : BlobRef) : Except Err DirReader × Trace :=
  match setFromBlobRef f dirBlobRef with
  | (.error e, tr) => (.error e, tr)
  | (.ok ss, tr) =>
    if ss.typ = "directory" then
      match ss.NewDirReader with
      | .error e => (.error (.creatingDirReader e), tr)
      | .ok dr => (.ok { dr with current := 0 }, tr)
    else (.error (.unexpectedType "directory" ss.typ), tr)

/-- The member-validation loop of DirReader.StaticSet: each valid member is
appended to dr.staticSet in turn; the first invalid member aborts with an
error, leaving the members appended so far in dr.staticSet. -/
def appendValidMembers (dr : DirReader) : List BlobRef → Except Err (List BlobRef) × DirReader
  | [] => (.ok (dr.staticSet.getD []), dr)
  | m :: rest =>
    if m.Valid then
      appendValidMembers { dr with staticSet := some (dr.staticSet.getD [] ++ [m]) } rest
    else (.error .invalidMember, dr)

/-- The cache-miss path of DirReader.StaticSet: fetch the entries blob, decode
it, require type "static-set", then run the member-validation loop.  The
source never closes the fetched stream on this path (no defer and no Close
call between the Fetch and every return), hence `closed := 0` in the trace. -/
def staticSetFetch (dr : DirReader) (f : FetchFn) :
    Except Err (List BlobRef) × DirReader × Trace :=
  if dr.ss.Entries.Valid then
    match f dr.ss.Entries with
    | .fail => (.error (.fetchError dr.ss.Entries), dr, { fetched := [dr.ss.Entries] })
    | .stream none =>
      (.error (.decodeError dr.ss.Entries), dr,
        { fetched := [dr.ss.Entries], opened := 1, closed := 0 })
    | .stream (some ss) =>
      if ss.typ = "static-set" then
        match appendValidMembers dr ss.Members with
        | (res, dr2) => (res, dr2, { fetched := [dr.ss.Entries], opened := 1, closed := 0 })
      else
        (.error (.unexpectedType "static-set" ss.typ), dr,
          { fetched := [dr.ss.Entries], opened := 1, closed := 0 })
  else (.error .invalidRef, dr, {})

/-- DirReader.StaticSet: return the cached member list if the cache is
non-nil, otherwise resolve the static-set blob. -/
def DirReader.StaticSet (dr : DirReader) (f : FetchFn) :
    Except Err (List BlobRef) × DirReader × Trace :=
  match dr.staticSet with
  | some cached => (.ok cached, dr, {})
  | none => staticSetFetch dr f

/-- Modelled from the spec: DirectoryEntry and NewDirectoryEntryFromBlobRef
are code of this repository outside src/.  Per spec §4.4 the resolver is an
opaque single-blob-to-entry function; we record only the ref an entry was
resolved from. -/
structure DirectoryEntry where
  ref : BlobRef
deriving DecidableEq

instance : Inhabited DirectoryEntry :=
  ⟨⟨⟨""⟩⟩⟩

/-- The per-member resolution capability (NewDirectoryEntryFromBlobRef with
the fetcher already applied). -/
def Resolver : Type :=
  BlobRef → Except Err DirectoryEntry

/-- The (entries, err) pair returned by Readdir; `entries = none` stands for
the Go nil slice. -/
structure ReaddirOut where
  entries : Option (List DirectoryEntry)
  err : Option Err
deriving DecidableEq

/-- The value of a successful resolution result (arbitrary on errors). -/
def okVal : Except Err DirectoryEntry → DirectoryEntry
  | .ok e => e
  | .error _ => default

/-- The value of Readdir's entries accumulator after appending the given
entries to an initially nil slice: still nil when nothing was appended. -/
def entriesVal (es : List DirectoryEntry) : Option (List DirectoryEntry) :=
  if es.isEmpty then none else some es

/-- The collection loop of Readdir: read each task's result in launch order,
appending successes to the entries accumulator; on the first task error,
return nil entries and an error that wraps `err0`, the value of Readdir's
`err` variable at that point (the source formats `err`, not `res.err`). -/
def collectResults (err0 : Option Err) (acc : Option (List DirectoryEntry)) :
    List (Except Err DirectoryEntry) → ReaddirOut
  | [] => ⟨acc, none⟩
  | .error _ :: _ => ⟨none, some (.dirEntryFailed err0)⟩
  | .ok ent :: rest => collectResults err0 (some (acc.getD [] ++ [ent])) rest

/-- The slice expression sts[current:up] of Readdir. -/
def readdirRange (sts : List BlobRef) (current up : Int) : List BlobRef :=
  (sts.drop current.toNat).take (up - current).toNat

/-- The branch block of Readdir that fixes the effective bounds: n <= 0
resets the cursor and lists everything; otherwise, when fewer than n members
remain, the upper bound is clamped to len and err is set to io.EOF.  Returns
(err, updated reader, up). -/
def readdirBounds (n len : Int) (dr1 : DirReader) : Option Err × DirReader × Int :=
  if n ≤ 0 then (none, { dr1 with current := 0 }, len)
  else if len - dr1.current < n then (some .eof, dr1, len)
  else (none, dr1, dr1.current + n)

/-- The body of Readdir after StaticSet succeeded: compute the effective
range bounds and end-of-sequence status, launch one resolution task per
member of the range, and collect the results in launch order.  Each task's
dedicated one-slot channel holds exactly the resolution of that task's ref,
so the collected result list is `range.map E` (schedule-independence of this
modelling is proved with fillSlots below). -/
def readdirCont (E : Resolver) (n : Int) (sts : List BlobRef) (dr1 : DirReader) :
    ReaddirOut × DirReader :=
  match readdirBounds n (sts.length : Int) dr1 with
  | (err0, dr2, up) =>
    (collectResults err0 none ((readdirRange sts dr2.current up).map E), dr2)

/-- DirReader.Readdir: resolve the static set (wrapping its error), then page
through it per readdirCont.  On success the source returns `entries, nil`,
so no end-of-sequence status reaches the caller. -/
def DirReader.Readdir (dr : DirReader) (f : FetchFn) (E : Resolver) (n : Int) :
    ReaddirOut × DirReader :=
  match dr.StaticSet f with
  | (.error e, dr1, _) => (⟨none, some (.staticSetFailed e)⟩, dr1)
  | (.ok sts, dr1, _) => readdirCont E n sts dr1

/-- The value task i computes and sends on its one-slot channel. -/
def taskResult (E : Resolver) (refs : List BlobRef) (i : Nat) :
    Except Err DirectoryEntry :=
  E (refs.getD i ⟨""⟩)

/-- The channel array after the tasks have completed in the order given by
`order`: slot i holds task i's result once task i has run. -/
def fillSlots (E : Resolver) (refs : List BlobRef) (order : List Nat) :
    List (Option (Except Err DirectoryEntry)) :=
  order.foldl (fun s i => s.set i (some (taskResult E refs i))) (List.replicate refs.length none)

/-- Reading a one-slot channel; the default is never hit for a schedule that
runs every task. -/
def readChan (o : Option (Except Err DirectoryEntry)) : Except Err DirectoryEntry :=
  o.getD (.error .invalidRef)

end Camli

namespace Auth

/-- An HTTP request, reduced to the one header auth.go reads:
req.Header.Get("Authorization"), with "" standing for an absent header. -/
structure Request where
  authorization : String
deriving DecidableEq

/-- The error results of basicAuth, one per fmt.Errorf site (plus the base64
CorruptInputError). -/
inductive AuthErr where
  /-- "Missing \"Authorization\" in header" -/
  | missingHeader
  /-- "Bogus Authorization header" (the regexp did not match) -/
  | bogusHeader
  /-- base64.StdEncoding.Decode returned an error -/
  | corruptInput
  /-- "didn't get two pieces" -/
  | notTwoPieces
deriving DecidableEq

/-- The character class of the kBasicAuthPattern regexp: [a-zA-Z0-9+/=]. -/
def isB64Char (c : Char) : Bool :=
  (decide ('a' ≤ c) && decide (c ≤ 'z')) ||
  (decide ('A' ≤ c) && decide (c ≤ 'Z')) ||
  (decide ('0' ≤ c) && decide (c ≤ '9')) ||
  c = '+' || c = '/' || c = '='

/-- kBasicAuthPattern = `^Basic ([a-zA-Z0-9\+/=]+)`: the header must start
with "Basic " followed by at least one class character; the submatch is the
maximal run of class characters after the space.  Returns the submatch. -/
def matchBasicToken : List Char → Option (List Char)
  | 'B' :: 'a' :: 's' :: 'i' :: 'c' :: ' ' :: rest =>
    let enc := rest.takeWhile isB64Char
    if enc.isEmpty then none else some enc
  | _ => none

/-- The index of a character in the standard base64 alphabet, if any. -/
def b64Val (c : Char) : Option Nat :=
  if decide ('A' ≤ c) && decide (c ≤ 'Z') then some (c.toNat - 65)
  else if decide ('a' ≤ c) && decide (c ≤ 'z') then some (c.toNat - 97 + 26)
  else if decide ('0' ≤ c) && decide (c ≤ '9') then some (c.toNat - 48 + 52)
  else if c = '+' then some 62
  else if c = '/' then some 63
  else none

/-- base64.StdEncoding decoding, quantum by quantum: four alphabet characters
yield three bytes; a final quantum "xx==" yields one byte and "xxx=" two;
padding anywhere but the final quantum, a character outside the alphabet, or
a trailing partial quantum is a decode error (CorruptInputError in Go). -/
def b64DecodeQuanta : List Char → Option (List Nat)
  | [] => some []
  | c1 :: c2 :: c3 :: c4 :: rest =>
    match b64Val c1, b64Val c2 with
    | some v1, some v2 =>
      if c3 = '=' then
        if c4 = '=' && rest.isEmpty then some [v1 * 4 + v2 / 16] else none
      else
        match b64Val c3 with
        | some v3 =>
          if c4 = '=' then
            if rest.isEmpty then some [v1 * 4 + v2 / 16, v2 % 16 * 16 + v3 / 4]
            else none
          else
            match b64Val c4 with
            | some v4 =>
              (b64DecodeQuanta rest).map
                (fun tl => (v1 * 4 + v2 / 16) :: (v2 % 16 * 16 + v3 / 4) :: (v3 % 4 * 64 + v4) :: tl)
            | none => none
        | none => none
    | _, _ => none
  | _ => none

/-- strings.SplitN(s, ":", 2) followed by the two-pieces check: split at the
first colon; `none` when the string holds no colon. -/
def splitFirstColon : List Char → Option (List Char × List Char)
  | [] => none
  | ':' :: rest => some ([], rest)
  | c :: rest =>
    match splitFirstColon rest with
    | none => none
    | some p => some (c :: p.1, p.2)

/-- basicAuth: extract the base64 token from the Authorization header via the
regexp, decode it, and split the decoded bytes at the first colon into
(username, password).  Decoded bytes are modelled as scalar values turned
into characters, which is faithful for ASCII credentials. -/
def basicAuth (req : Request) : Except AuthErr (String × String) :=
  if req.authorization = "" then .error .missingHeader
  else
    match matchBasicToken req.authorization.data with
    | none => .error .bogusHeader
    | some encoded =>
      match b64DecodeQuanta encoded with
      | none => .error .corruptInput
      | some bytes =>
        match splitFirstColon (bytes.map Char.ofNat) with
        | none => .error .notTwoPieces
        | some p => .ok (p.1.asString, p.2.asString)

/-- DevAuth: the advertised-password development mode. -/
structure DevAuth where
  Password : String
deriving DecidableEq

/-- DevAuth.IsAuthorized: parse the Basic credentials and compare only the
password part against the configured password. -/
def DevAuth.IsAuthorized (da : DevAuth) (req : Request) : Bool :=
  match basicAuth req with
  | .error _ => false
  | .ok up => up.2 == da.Password

end Auth

namespace Camli

/-- A directory schema blob ref for concrete runs. -/
def dRef : BlobRef :=
  ⟨"sha1-dir"⟩

/-- The entries (static-set) blob ref of the concrete directory. -/
def eRef : BlobRef :=
  ⟨"sha1-entries"⟩

/-- A valid member ref. -/
def mRef1 : BlobRef :=
  ⟨"sha1-m1"⟩

/-- Another valid member ref. -/
def mRef2 : BlobRef :=
  ⟨"sha1-m2"⟩

/-- A malformed (empty digest) ref. -/
def badRef : BlobRef :=
  ⟨""⟩

/-- The decoded directory schema document of the concrete runs. -/
def dirDoc : superset :=
  { typ := "directory", Entries := eRef }

/-- A fresh DirReader over dirDoc, as NewDirReader would build it. -/
def dr0 : DirReader :=
  { ss := dirDoc }

/-- Fetcher: the static-set blob holds two valid members. -/
def fTwo : FetchFn :=
  fun r => if r = eRef then .stream (some { typ := "static-set", Members := [mRef1, mRef2] }) else .fail

/-- Fetcher: the static-set blob holds a valid member then a malformed one. -/
def fPartial : FetchFn :=
  fun r => if r = eRef then .stream (some { typ := "static-set", Members := [mRef1, badRef] }) else .fail

/-- Fetcher: the static-set blob holds no members. -/
def fEmpty : FetchFn :=
  fun r => if r = eRef then .stream (some { typ := "static-set", Members := [] }) else .fail

/-- Fetcher: the static-set blob holds one valid member. -/
def fOne : FetchFn :=
  fun r => if r = eRef then .stream (some { typ := "static-set", Members := [mRef1] }) else .fail

/-- Fetcher: the blob at dRef decodes to a "file" schema document. -/
def fFile : FetchFn :=
  fun r => if r = dRef then .stream (some { typ := "file", Entries := eRef }) else .fail

/-- Resolver: every member resolves to an entry recording its ref. -/
def Egood : Resolver :=
  fun r => .ok ⟨r⟩

/-- Resolver: mRef1 fails to resolve, everything else succeeds. -/
def Efail1 : Resolver :=
  fun r => if r = mRef1 then .error (.entryResolutionError r) else .ok ⟨r⟩

end Camli

namespace Camli

/-- A successful member-validation loop leaves the schema and cursor alone,
its cache agrees with the returned list, and a still-nil cache means the
reader did not change at all. -/
theorem appendValidMembers_ok (ms : List BlobRef) :
    ∀ (dr : DirReader) {l : List BlobRef} {dr2 : DirReader},
      appendValidMembers dr ms = (.ok l, dr2) →
      dr2.ss = dr.ss ∧ dr2.current = dr.current ∧ dr2.staticSet.getD [] = l ∧
        (dr2.staticSet = none → dr2 = dr) := by
  induction ms with
  | nil =>
    intro dr l dr2 h
    simp only [appendValidMembers, Prod.mk.injEq, Except.ok.injEq] at h
    obtain ⟨hl, hdr⟩ := h
    subst hdr
    exact ⟨rfl, rfl, hl, fun _ => rfl⟩
  | cons m rest ih =>
    intro dr l dr2 h
    simp only [appendValidMembers] at h
    by_cases hv : m.Valid = true
    · rw [if_pos hv] at h
      obtain ⟨h1, h2, h3, h4⟩ := ih _ h
      refine ⟨h1, h2, h3, fun hnone => ?_⟩
      rw [h4 hnone] at hnone
      simp at hnone
    · rw [if_neg hv] at h
      simp at h

/-- A successful cache-miss resolution leaves the schema and cursor alone,
its cache agrees with the returned list, and a still-nil cache means the
reader did not change at all. -/
theorem staticSetFetch_ok (dr : DirReader) (f : FetchFn) {sts : List BlobRef}
    {dr1 : DirReader} {tr : Trace} (h : staticSetFetch dr f = (.ok sts, dr1, tr)) :
    dr1.ss = dr.ss ∧ dr1.current = dr.current ∧ dr1.staticSet.getD [] = sts ∧
      (dr1.staticSet = none → dr1 = dr) := by
  unfold staticSetFetch at h
  split at h
  · split at h
    · simp at h
    · simp at h
    · rename_i ssd heq
      split at h
      · split at h
        rename_i res dr2 happ
        simp only [Prod.mk.injEq] at h
        obtain ⟨hres, hdr, _⟩ := h
        subst hres
        subst hdr
        exact appendValidMembers_ok _ _ happ
      · simp at h
  · simp at h

/-- A successful StaticSet leaves the schema and cursor alone, agrees with
the cache it leaves behind, and is stable: calling it again on the resulting
reader returns the same list and the same reader (re-fetching only when the
cache is still nil, i.e. when the resolved set was empty). -/
theorem StaticSet_ok (dr : DirReader) (f : FetchFn) {sts : List BlobRef}
    {dr1 : DirReader} {tr : Trace} (h : dr.StaticSet f = (.ok sts, dr1, tr)) :
    dr1.ss = dr.ss ∧ dr1.current = dr.current ∧ dr1.staticSet.getD [] = sts ∧
      dr1.StaticSet f = (.ok sts, dr1, if dr1.staticSet = none then tr else {}) := by
  unfold DirReader.StaticSet at h
  split at h
  · rename_i cached hcache
    simp only [Prod.mk.injEq, Except.ok.injEq] at h
    obtain ⟨hl, hdr, _⟩ := h
    subst hdr
    subst hl
    refine ⟨rfl, rfl, ?_, ?_⟩
    · rw [hcache]
      rfl
    · simp [DirReader.StaticSet, hcache]
  · rename_i hcache
    obtain ⟨h1, h2, h3, h4⟩ := staticSetFetch_ok dr f h
    refine ⟨h1, h2, h3, ?_⟩
    cases hc1 : dr1.staticSet with
    | some cached =>
      simp only [DirReader.StaticSet, hc1, if_neg]
      have : cached = sts := by
        have := h3
        rw [hc1] at this
        simpa using this
      simp [this]
    | none =>
      have hdr : dr1 = dr := h4 hc1
      subst hdr
      simp only [DirReader.StaticSet, hcache, if_pos]
      simpa using h

/-- Collecting all-successful task results appends their values in launch
order to the accumulator and reports no error. -/
theorem collectResults_all_ok (err0 : Option Err) (rs : List (Except Err DirectoryEntry)) :
    ∀ acc, (∀ r ∈ rs, ∃ e, r = Except.ok e) →
      collectResults err0 acc rs =
        ⟨if rs.isEmpty then acc else some (acc.getD [] ++ rs.map okVal), none⟩ := by
  induction rs with
  | nil =>
    intro acc _
    simp [collectResults]
  | cons r rest ih =>
    intro acc hall
    obtain ⟨e, he⟩ := hall r (by simp)
    subst he
    simp only [collectResults]
    rw [ih _ (fun x hx => hall x (by simp [hx]))]
    cases rest with
    | nil => simp [okVal]
    | cons r2 rest2 => simp [okVal]

/-- If the collection loop reports no error, every task result was a
success. -/
theorem collectResults_err_none (err0 : Option Err) (rs : List (Except Err DirectoryEntry)) :
    ∀ acc, (collectResults err0 acc rs).err = none → ∀ r ∈ rs, ∃ e, r = Except.ok e := by
  induction rs with
  | nil =>
    intro acc _ r hr
    simp at hr
  | cons r rest ih =>
    intro acc h r2 hr2
    cases r with
    | error e => simp [collectResults] at h
    | ok e =>
      simp only [collectResults] at h
      rcases List.mem_cons.mp hr2 with rfl | hmem
      · exact ⟨e, rfl⟩
      · exact ih _ h r2 hmem

/-- The entries accumulator wrapper is nil exactly on the empty list. -/
theorem entriesVal_getD (es : List DirectoryEntry) : (entriesVal es).getD [] = es := by
  cases es <;> simp [entriesVal]

/-- Collecting the resolutions of a range of members that all resolve yields
exactly the resolved entries in member order, with no error. -/
theorem collect_map_ok (err0 : Option Err) (E : Resolver) (range : List BlobRef)
    (hE : ∀ r ∈ range, ∃ e, E r = .ok e) :
    collectResults err0 none (range.map E) =
      ⟨entriesVal (range.map (fun r => okVal (E r))), none⟩ := by
  rw [collectResults_all_ok err0 (range.map E) none ?hall]
  case hall =>
    intro x hx
    obtain ⟨r, hr, hrx⟩ := List.mem_map.mp hx
    rw [← hrx]
    exact hE r hr
  cases range with
  | nil => simp [entriesVal]
  | cons r rest => simp [entriesVal, okVal]

/-- The slice bounds of the clamped branch: when the upper bound is the set
length, the slice is everything from the cursor on. -/
theorem readdirRange_full (sts : List BlobRef) (c : Int) :
    readdirRange sts c (sts.length : Int) = sts.drop c.toNat := by
  unfold readdirRange
  apply List.take_of_length_le
  rw [List.length_drop]
  omega

/-- The slice of the list-everything branch is the whole member list. -/
theorem readdirRange_zero_full (sts : List BlobRef) :
    readdirRange sts 0 (sts.length : Int) = sts := by
  rw [readdirRange_full]
  simp

/-- Folding task writes over any schedule leaves slot i holding task i's
value exactly when some task wrote it, independent of the write order. -/
theorem foldl_set_getElem? {α : Type} (v : Nat → α) (order : List Nat) :
    ∀ (init : List α) (i : Nat),
      (order.foldl (fun s j => s.set j (v j)) init)[i]? =
        if i ∈ order ∧ i < init.length then some (v i) else init[i]? := by
  induction order with
  | nil =>
    intro init i
    simp
  | cons j rest ih =>
    intro init i
    simp only [List.foldl_cons]
    rw [ih, List.length_set]
    by_cases hmem : i ∈ rest
    · by_cases hlen : i < init.length
      · simp [hmem, hlen, List.mem_cons]
      · have h1 : (init.set j (v j))[i]? = none :=
          List.getElem?_eq_none (by rw [List.length_set]; omega)
        have h2 : init[i]? = none := List.getElem?_eq_none (by omega)
        simp [hmem, hlen, h1, h2]
    · rw [if_neg (fun hc => hmem hc.1), List.getElem?_set]
      by_cases hij : j = i
      · subst hij
        by_cases hlen : j < init.length
        · rw [if_pos rfl, if_pos hlen, if_pos ⟨List.mem_cons_self j rest, hlen⟩]
        · rw [if_pos rfl, if_neg hlen, if_neg (fun hc => hlen hc.2)]
          symm
          exact List.getElem?_eq_none (by omega)
      · rw [if_neg hij]
        have hnotin : i ∉ j :: rest := by
          rw [List.mem_cons]
          rintro (rfl | hm)
          · exact hij rfl
          · exact hmem hm
        rw [if_neg (fun hc => hnotin hc.1)]

/-- After every task of a complete schedule has run, slot i holds task i's
result, whatever the completion order was. -/
theorem fillSlots_perm (E : Resolver) (refs : List BlobRef) (order : List Nat)
    (h : order.Perm (List.range refs.length)) :
    fillSlots E refs order =
      (List.range refs.length).map (fun i => some (taskResult E refs i)) := by
  apply List.ext_getElem?
  intro i
  unfold fillSlots
  rw [foldl_set_getElem?, List.length_replicate]
  by_cases hi : i < refs.length
  · have hmem : i ∈ order := h.mem_iff.mpr (List.mem_range.mpr hi)
    rw [if_pos ⟨hmem, hi⟩, List.getElem?_map, List.getElem?_range hi]
    rfl
  · have hmem : i ∉ order := fun hm => hi (List.mem_range.mp (h.mem_iff.mp hm))
    rw [if_neg (by tauto), List.getElem?_replicate, if_neg hi]
    symm
    apply List.getElem?_eq_none
    rw [List.length_map, List.length_range]
    omega

/-- Indexing a list by the positions of List.range recovers a plain map. -/
theorem range_map_getD {α β : Type} (l : List α) (d : α) (g : α → β) :
    (List.range l.length).map (fun i => g (l.getD i d)) = l.map g := by
  induction l with
  | nil => simp
  | cons a tl ih =>
    rw [List.length_cons, List.range_succ_eq_map, List.map_cons, List.map_map]
    have hcomp : ((fun i => g ((a :: tl).getD i d)) ∘ Nat.succ) = fun i => g (tl.getD i d) := by
      funext i
      simp [List.getD_cons_succ]
    rw [List.getD_cons_zero, hcomp, ih]
    rfl

/-- Reading every one-slot channel in launch order after a complete schedule
yields each member's resolution in member order, whatever the completion
order was. -/
theorem fillSlots_read (E : Resolver) (refs : List BlobRef) (order : List Nat)
    (h : order.Perm (List.range refs.length)) :
    (fillSlots E refs order).map readChan = refs.map E := by
  rw [fillSlots_perm E refs order h, List.map_map]
  have hcomp : (readChan ∘ fun i => some (taskResult E refs i)) =
      fun i => E (refs.getD i ⟨""⟩) := rfl
  rw [hcomp]
  exact range_map_getD refs ⟨""⟩ E

/-- readdirCont in paginated mode: the cursor is untouched, the upper bound
is the length when fewer than n members remain (with io.EOF computed into
err) and cursor+n otherwise. -/
theorem readdirCont_pos (E : Resolver) (n : Int) (sts : List BlobRef) (dr1 : DirReader)
    (hn : 0 < n) :
    readdirCont E n sts dr1 =
      (collectResults
          (if (sts.length : Int) - dr1.current < n then some .eof else none) none
          ((readdirRange sts dr1.current
              (if (sts.length : Int) - dr1.current < n then (sts.length : Int)
               else dr1.current + n)).map E),
        dr1) := by
  unfold readdirCont readdirBounds
  rw [if_neg (by omega)]
  by_cases hc : (sts.length : Int) - dr1.current < n
  · rw [if_pos hc, if_pos hc, if_pos hc]
  · rw [if_neg hc, if_neg hc, if_neg hc]

/-- readdirCont in list-everything mode: the cursor is reset to 0 and the
whole range is resolved with no end-of-sequence status. -/
theorem readdirCont_nonpos (E : Resolver) (n : Int) (sts : List BlobRef) (dr1 : DirReader)
    (hn : n ≤ 0) :
    readdirCont E n sts dr1 =
      (collectResults none none ((readdirRange sts 0 (sts.length : Int)).map E),
        { dr1 with current := 0 }) := by
  unfold readdirCont readdirBounds
  rw [if_pos hn]

/-- A successful collection whose input is the ordered resolutions of a range
returns exactly the range's resolved entries in range order. -/
theorem collect_entries_ok (err0 : Option Err) (E : Resolver) (range : List BlobRef)
    (out : ReaddirOut) (hco : collectResults err0 none (range.map E) = out)
    (hok : out.err = none) :
    out.entries.getD [] = range.map (fun r => okVal (E r)) := by
  subst hco
  have hall := collectResults_err_none err0 (range.map E) none hok
  have hE : ∀ r ∈ range, ∃ e, E r = .ok e :=
    fun r hr => hall (E r) (List.mem_map_of_mem E hr)
  rw [collect_map_ok err0 E range hE]
  exact entriesVal_getD _

/-- Claim C1 (code bug): a static-set with a valid member followed by a
malformed one makes StaticSet fail with the invalid-member error, but the
valid prefix has already been appended to the cache, so a subsequent
StaticSet call returns the partial list [mRef1] as a success, with an empty
trace (no re-fetch, no re-validation) — contradicting the claim that no
partial member list is stored and that resolution re-runs from scratch. -/
theorem staticSet_partial_cache_bug :
    (dr0.StaticSet fPartial).1 = .error .invalidMember ∧
      (dr0.StaticSet fPartial).2.1.staticSet = some [mRef1] ∧
      (dr0.StaticSet fPartial).2.1.StaticSet fPartial =
        (.ok [mRef1], (dr0.StaticSet fPartial).2.1, {}) := by
  decide

/-- Claim C2 (code bug): when one member's resolution task fails, Readdir
does return nil entries and a non-nil error and discards the successful
results, but the returned error wraps the stale enclosing err variable
(nil here), not the failing task's error (entryResolutionError mRef1). -/
theorem readdir_error_wraps_stale_err_bug :
    dr0.Readdir fTwo Efail1 2 =
      (⟨none, some Err.dirEntryFailedNil⟩,
        { ss := dirDoc, staticSet := some [mRef1, mRef2], current := 0 }) ∧
      Efail1 mRef1 = .error (.entryResolutionError mRef1) ∧
      Efail1 mRef2 = .ok ⟨mRef2⟩ := by
  decide

/-- Claim C3 (counterexample): a fresh two-member DirReader asked for five
entries returns the two clamped-range entries with a nil error — no EOF
status is returned to the caller, refuting the claim that EOF is returned
alongside the entries. -/
theorem readdir_eof_not_returned_cex :
    dr0.Readdir fTwo Egood 5 =
      (⟨some [⟨mRef1⟩, ⟨mRef2⟩], none⟩,
        { ss := dirDoc, staticSet := some [mRef1, mRef2], current := 0 }) ∧
      (dr0.Readdir fTwo Egood 5).1.err ≠ some Err.eof := by
  decide

/-- Claim C3 (amended): with n > 0 and cursor + n exceeding the member
count, the effective upper bound is clamped to the member count and the
entries of the clamped range [cursor, len) are returned, but the
end-of-sequence status, though computed internally, is dropped: the call
returns a nil error. -/
theorem readdir_clamped_eof_dropped (f : FetchFn) (E : Resolver) (n : Int) (dr : DirReader)
    (sts : List BlobRef) (dr1 : DirReader) (tr : Trace)
    (h : dr.StaticSet f = (.ok sts, dr1, tr)) (hn : 0 < n)
    (hclamp : (sts.length : Int) < dr.current + n)
    (hE : ∀ r ∈ sts.drop dr.current.toNat, ∃ e, E r = .ok e) :
    dr.Readdir f E n =
      (⟨entriesVal ((sts.drop dr.current.toNat).map (fun r => okVal (E r))), none⟩, dr1) := by
  obtain ⟨h1, h2, h3, h4⟩ := StaticSet_ok dr f h
  simp only [DirReader.Readdir, h]
  rw [readdirCont_pos E n sts dr1 hn]
  rw [if_pos (by rw [h2]; omega), if_pos (by rw [h2]; omega)]
  rw [readdirRange_full, h2]
  rw [collect_map_ok _ _ _ hE]

/-- Witness for the amended C3: a fresh two-member directory asked for five
entries returns both entries from the clamped range with a nil error. -/
theorem readdir_clamped_eof_dropped_witness :
    dr0.Readdir fTwo Egood 5 =
      (⟨entriesVal (([mRef1, mRef2].drop dr0.current.toNat).map (fun r => okVal (Egood r))),
          none⟩,
        { ss := dirDoc, staticSet := some [mRef1, mRef2], current := 0 }) :=
  readdir_clamped_eof_dropped fTwo Egood 5 dr0 [mRef1, mRef2]
    { ss := dirDoc, staticSet := some [mRef1, mRef2], current := 0 }
    { fetched := [eRef], opened := 1, closed := 0 }
    (by decide) (by decide) (by decide) (fun r _ => ⟨⟨r⟩, rfl⟩)

/-- Claim C4 (counterexample): on a directory whose static-set has no
members, StaticSet succeeds but leaves the cache nil, so a second call
fetches the static-set blob all over again (its trace records the fetch),
refuting the claim that after any successful call no further fetch occurs. -/
theorem staticSet_empty_refetch_cex :
    dr0.StaticSet fEmpty =
        (.ok [], dr0, { fetched := [eRef], opened := 1, closed := 0 }) ∧
      (dr0.StaticSet fEmpty).2.1.StaticSet fEmpty =
        (.ok [], dr0, { fetched := [eRef], opened := 1, closed := 0 }) := by
  decide

/-- Claim C4 (amended): once StaticSet has returned successfully with a
non-empty member sequence, a second call performs no fetch at all (empty
trace) and returns the identical cached sequence and unchanged reader; only
the empty static-set, whose nil cache sentinel cannot record success, is
re-fetched on every call. -/
theorem staticSet_cached_after_nonempty (f : FetchFn) (dr : DirReader)
    (sts : List BlobRef) (dr1 : DirReader) (tr : Trace)
    (h : dr.StaticSet f = (.ok sts, dr1, tr)) (hne : sts ≠ []) :
    dr1.StaticSet f = (.ok sts, dr1, {}) := by
  obtain ⟨h1, h2, h3, h4⟩ := StaticSet_ok dr f h
  cases hc : dr1.staticSet with
  | none =>
    rw [hc] at h3
    simp at h3
    exact absurd h3 hne
  | some x =>
    rw [h4, hc]
    simp

/-- Witness for the amended C4: after resolving a one-member static-set, the
second StaticSet call returns the cached member with an empty trace. -/
theorem staticSet_cached_after_nonempty_witness :
    ({ ss := dirDoc, staticSet := some [mRef1], current := 0 } : DirReader).StaticSet fOne =
      (.ok [mRef1], { ss := dirDoc, staticSet := some [mRef1], current := 0 }, {}) :=
  staticSet_cached_after_nonempty fOne dr0 [mRef1]
    { ss := dirDoc, staticSet := some [mRef1], current := 0 }
    { fetched := [eRef], opened := 1, closed := 0 }
    (by decide) (by decide)

/-- Claim C5: a successful paginated Readdir (n > 0, nil error) leaves the
cursor unchanged, and an immediately following Readdir with the same n on
the resulting reader resolves the same range again, returning the same
output and the same reader. -/
theorem readdir_cursor_unchanged (f : FetchFn) (E : Resolver) (n : Int) (dr : DirReader)
    (out : ReaddirOut) (dr2 : DirReader)
    (h : dr.Readdir f E n = (out, dr2)) (hn : 0 < n) (hok : out.err = none) :
    dr2.current = dr.current ∧ dr2.Readdir f E n = (out, dr2) := by
  rcases hss : dr.StaticSet f with ⟨res, dr1, tr⟩
  cases res with
  | error e =>
    simp only [DirReader.Readdir, hss] at h
    rw [Prod.mk.injEq] at h
    rw [← h.1] at hok
    simp at hok
  | ok sts =>
    simp only [DirReader.Readdir, hss] at h
    rw [readdirCont_pos E n sts dr1 hn, Prod.mk.injEq] at h
    obtain ⟨hout, hdr⟩ := h
    subst hdr
    obtain ⟨h1, h2, h3, h4⟩ := StaticSet_ok dr f hss
    refine ⟨h2, ?_⟩
    simp only [DirReader.Readdir, h4]
    rw [readdirCont_pos E n sts dr1 hn, hout]

/-- Witness for C5: after a successful Readdir(1) on a fresh two-member
directory, the cursor is still 0 and a second Readdir(1) resolves the first
member again. -/
theorem readdir_cursor_unchanged_witness :
    ({ ss := dirDoc, staticSet := some [mRef1, mRef2], current := 0 } : DirReader).current =
        dr0.current ∧
      ({ ss := dirDoc, staticSet := some [mRef1, mRef2], current := 0 } : DirReader).Readdir
          fTwo Egood 1 =
        (⟨some [⟨mRef1⟩], none⟩,
          { ss := dirDoc, staticSet := some [mRef1, mRef2], current := 0 }) :=
  readdir_cursor_unchanged fTwo Egood 1 dr0 ⟨some [⟨mRef1⟩], none⟩
    { ss := dirDoc, staticSet := some [mRef1, mRef2], current := 0 }
    (by decide) (by decide) (by decide)

/-- Claim C6: a successful Readdir returns one entry per member of the
resolved range, in exact static-set member order (entry i is the resolution
of member i of the range), and the per-task one-slot channels make the
collected results independent of the completion order: any complete
schedule fills the slots so that reading them in launch order yields the
members' resolutions in member order. -/
theorem readdir_order_preserved (f : FetchFn) (E : Resolver) (n : Int) (dr : DirReader)
    (out : ReaddirOut) (dr2 : DirReader)
    (h : dr.Readdir f E n = (out, dr2)) (hok : out.err = none) :
    ∃ sts up, (dr.StaticSet f).1 = .ok sts ∧
      out.entries.getD [] = (readdirRange sts dr2.current up).map (fun r => okVal (E r)) ∧
      (out.entries.getD []).length = (readdirRange sts dr2.current up).length ∧
      ∀ order, order.Perm (List.range (readdirRange sts dr2.current up).length) →
        (fillSlots E (readdirRange sts dr2.current up) order).map readChan =
          (readdirRange sts dr2.current up).map E := by
  rcases hss : dr.StaticSet f with ⟨res, dr1, tr⟩
  cases res with
  | error e =>
    simp only [DirReader.Readdir, hss] at h
    rw [Prod.mk.injEq] at h
    rw [← h.1] at hok
    simp at hok
  | ok sts =>
    simp only [DirReader.Readdir, hss] at h
    by_cases hn : n ≤ 0
    · rw [readdirCont_nonpos E n sts dr1 hn, Prod.mk.injEq] at h
      obtain ⟨hout, hdr⟩ := h
      subst hdr
      refine ⟨sts, (sts.length : Int), rfl, ?_, ?_, ?_⟩
      · exact collect_entries_ok none E _ out hout hok
      · rw [collect_entries_ok none E _ out hout hok, List.length_map]
      · intro order horder
        exact fillSlots_read E _ order horder
    · rw [readdirCont_pos E n sts dr1 (by omega), Prod.mk.injEq] at h
      obtain ⟨hout, hdr⟩ := h
      subst hdr
      refine ⟨sts,
        (if (sts.length : Int) - dr1.current < n then (sts.length : Int)
         else dr1.current + n), rfl, ?_, ?_, ?_⟩
      · exact collect_entries_ok _ E _ out hout hok
      · rw [collect_entries_ok _ E _ out hout hok, List.length_map]
      · intro order horder
        exact fillSlots_read E _ order horder

/-- Witness for C6: a successful Readdir(2) on a fresh two-member directory
returns the two entries in member order, with the schedule-independence
property for its range. -/
theorem readdir_order_preserved_witness :
    ∃ sts up, (dr0.StaticSet fTwo).1 = .ok sts ∧
      ((⟨some [⟨mRef1⟩, ⟨mRef2⟩], none⟩ : ReaddirOut).entries.getD [] =
        (readdirRange sts 0 up).map (fun r => okVal (Egood r))) ∧
      ((⟨some [⟨mRef1⟩, ⟨mRef2⟩], none⟩ : ReaddirOut).entries.getD []).length =
        (readdirRange sts 0 up).length ∧
      ∀ order, order.Perm (List.range (readdirRange sts 0 up).length) →
        (fillSlots Egood (readdirRange sts 0 up) order).map readChan =
          (readdirRange sts 0 up).map Egood :=
  readdir_order_preserved fTwo Egood 2 dr0 ⟨some [⟨mRef1⟩, ⟨mRef2⟩], none⟩
    { ss := dirDoc, staticSet := some [mRef1, mRef2], current := 0 }
    (by decide) rfl

/-- Claim C7: with n <= 0 and a successfully resolved static-set, Readdir
resets the cursor to 0 and resolves and returns entries for the whole range
[0, len), whatever the cursor was before the call. -/
theorem readdir_list_everything (f : FetchFn) (E : Resolver) (n : Int) (dr : DirReader)
    (sts : List BlobRef) (dr1 : DirReader) (tr : Trace)
    (h : dr.StaticSet f = (.ok sts, dr1, tr)) (hn : n ≤ 0)
    (hE : ∀ r ∈ sts, ∃ e, E r = .ok e) :
    dr.Readdir f E n =
      (⟨entriesVal (sts.map (fun r => okVal (E r))), none⟩, { dr1 with current := 0 }) := by
  simp only [DirReader.Readdir, h]
  rw [readdirCont_nonpos E n sts dr1 hn, readdirRange_zero_full]
  rw [collect_map_ok none E sts hE]

/-- Witness for C7: Readdir(0) on a reader whose cursor sits at 1 returns
both members and leaves the cursor at 0. -/
theorem readdir_list_everything_witness :
    ({ ss := dirDoc, staticSet := some [mRef1, mRef2], current := 1 } : DirReader).Readdir
        fTwo Egood 0 =
      (⟨entriesVal ([mRef1, mRef2].map (fun r => okVal (Egood r))), none⟩,
        { ss := dirDoc, staticSet := some [mRef1, mRef2], current := 0 }) :=
  readdir_list_everything fTwo Egood 0
    { ss := dirDoc, staticSet := some [mRef1, mRef2], current := 1 }
    [mRef1, mRef2]
    { ss := dirDoc, staticSet := some [mRef1, mRef2], current := 1 }
    {} (by decide) (by decide) (fun r _ => ⟨⟨r⟩, rfl⟩)

/-- Claim C8: when the fetched blob decodes to a schema document whose type
is not "directory", NewDirReader fails with the UnexpectedType error, and
the construction's whole fetch trace is the single directory-blob fetch —
no static-set fetch happens at construction time. -/
theorem newDirReader_type_mismatch (f : FetchFn) (ref : BlobRef) (ss : superset) (tr : Trace)
    (h1 : setFromBlobRef f ref = (.ok ss, tr)) (h2 : ss.typ ≠ "directory") :
    NewDirReader f ref = (.error (.unexpectedType "directory" ss.typ), tr) ∧
      tr.fetched = [ref] := by
  constructor
  · simp only [NewDirReader, h1]
    rw [if_neg h2]
  · unfold setFromBlobRef at h1
    split at h1
    · split at h1
      · simp at h1
      · simp at h1
      · rw [Prod.mk.injEq] at h1
        rw [← h1.2]
    · simp at h1

/-- Witness for C8: constructing over a "file"-typed blob fails with
UnexpectedType after fetching only the directory blob itself. -/
theorem newDirReader_type_mismatch_witness :
    NewDirReader fFile dRef =
        (.error (.unexpectedType "directory" "file"),
          { fetched := [dRef], opened := 1, closed := 1 }) ∧
      ({ fetched := [dRef], opened := 1, closed := 1 } : Trace).fetched = [dRef] :=
  newDirReader_type_mismatch fFile dRef
    { typ := "file", Entries := eRef, Members := [], blobRef := dRef }
    { fetched := [dRef], opened := 1, closed := 1 }
    (by decide) (by decide)

/-- Claim C9 (code bug): setFromBlobRef closes every stream it opens on
every exit path, but StaticSet fetches the static-set blob and never closes
the stream — even on a fully successful resolution the trace shows one
opened and zero closed streams, refuting the claim that every fetched
stream is closed before the operation returns. -/
theorem staticSet_stream_left_open_bug :
    (∀ (f : FetchFn) (r : BlobRef),
        (setFromBlobRef f r).2.closed = (setFromBlobRef f r).2.opened) ∧
      (dr0.StaticSet fOne).1 = .ok [mRef1] ∧
      (dr0.StaticSet fOne).2.2.opened = 1 ∧ (dr0.StaticSet fOne).2.2.closed = 0 := by
  refine ⟨fun f r => ?_, by decide, by decide, by decide⟩
  unfold setFromBlobRef
  split
  · split <;> rfl
  · rfl

end Camli

namespace Auth

/-- Claim C10: whenever the Authorization header parses as Basic credentials
user:pass, DevAuth accepts the request exactly when pass equals the
configured password — the username plays no role at all. -/
theorem devAuth_password_only (da : DevAuth) (req : Request) (u p : String)
    (h : basicAuth req = .ok (u, p)) :
    (da.IsAuthorized req = true) ↔ p = da.Password := by
  simp only [DevAuth.IsAuthorized, h]
  exact beq_iff_eq

/-- Witness for C10: with password "pw", a request whose header decodes to
":pw" (empty username) is authorized. -/
theorem devAuth_password_only_witness :
    DevAuth.IsAuthorized ⟨"pw"⟩ ⟨"Basic OnB3"⟩ = true :=
  (devAuth_password_only ⟨"pw"⟩ ⟨"Basic OnB3"⟩ "" "pw" (by decide)).mpr rfl

end Auth
